import Mathlib

/-!
Shallow embedding of `src/biokit/taxonomy/taxonomy.py` (class `Taxonomy`):
record parsing, the record store, lineage walking, child lookup and the
family-tree builder.  Text is modelled as lists of characters; the Python
dict keyed by taxon id is modelled as an insertion-ordered association
list; Python exceptions are modelled with `Except`.
-/

set_option autoImplicit false

namespace Biokit

/-- Text is modelled as a list of characters. -/
abbrev Chars := List Char

/-- Python regex class `\s` (whitespace, six ASCII characters). -/
def isPySpace (c : Char) : Bool :=
  c = ' ' || c = '\t' || c = '\n' || c = '\r' || c = Char.ofNat 11 || c = Char.ofNat 12

/-- Python regex class `\d` (ASCII digit). -/
def isDigitChar (c : Char) : Bool :=
  '0' ≤ c && c ≤ '9'

/-- Python `int` applied to a nonempty ASCII digit string. -/
def digitsToNat (ds : Chars) : Nat :=
  ds.foldl (fun a c => a * 10 + (c.toNat - 48)) 0

/-- Python `str` applied to a nonnegative integer. -/
def natRepr (n : Nat) : Chars := (Nat.repr n).toList

/-- Whether the first list is a prefix of the second. -/
def startsWithSeq : Chars → Chars → Bool
  | [], _ => true
  | _ :: _, [] => false
  | p :: ps, c :: cs => p = c && startsWithSeq ps cs

/-- Match the regex tail `\s+\:\s*(\d+)` at the start of `s`, returning the
captured digit group.  Greedy runs need no backtracking here because a
whitespace character is never a colon or a digit. -/
def matchNumTail (s : Chars) : Option Chars :=
  let ws := s.takeWhile isPySpace
  let r1 := s.dropWhile isPySpace
  if ws.isEmpty then none else
  match r1 with
  | ':' :: r2 =>
    let r3 := r2.dropWhile isPySpace
    let ds := r3.takeWhile isDigitChar
    if ds.isEmpty then none else some ds
  | _ => none

/-- Match `LIT\s+\:\s*(\d+)` anchored at the start of `s`. -/
def matchNumAt (lit : Chars) (s : Chars) : Option Chars :=
  if startsWithSeq lit s then matchNumTail (s.drop lit.length) else none

/-- Match `\s*([^\n]+)` at the start of `s` with Python backtracking: prefer
the longest whitespace run, falling back one character at a time when no
non-newline character follows it. -/
def matchLineCapture : Chars → Option Chars
  | [] => none
  | c :: rest =>
    if isPySpace c then
      match matchLineCapture rest with
      | some r => some r
      | none => if c = '\n' then none else some ((c :: rest).takeWhile (fun x => x ≠ '\n'))
    else some ((c :: rest).takeWhile (fun x => x ≠ '\n'))

/-- Match `LIT\s+\:\s*([^\n]+)\s*` anchored at the start of `s`. -/
def matchLineAt (lit : Chars) (s : Chars) : Option Chars :=
  if startsWithSeq lit s then
    let rest := s.drop lit.length
    let ws := rest.takeWhile isPySpace
    let r1 := rest.dropWhile isPySpace
    if ws.isEmpty then none else
    match r1 with
    | ':' :: r2 => matchLineCapture r2
    | _ => none
  else none

/-- Python `re.search`: try the anchored matcher at every position of the
text, left to right, returning the leftmost match. -/
def searchWith (m : Chars → Option Chars) : Chars → Option Chars
  | [] => none
  | c :: cs =>
    match m (c :: cs) with
    | some r => some r
    | none => searchWith m cs

/-- The literal of `self._child_match` (taxonomy.py line 79). -/
def idLit : Chars := ['I', 'D']

/-- The literal of `self._parent_match` (line 80). -/
def parentLit : Chars := ("PARENT ID").toList

/-- The literal of `self._name_match` (line 82). -/
def nameLit : Chars := ("SCIENTIFIC NAME").toList

/-- The literal of `self._rank_match` (line 81). -/
def rankLit : Chars := ("RANK").toList

/-- One parsed record: the dictionary built by `Taxonomy._interpret_record`,
with optional fields for the keys that are only set when their regex
matched. -/
structure TaxonRecord where
  raw : Chars
  id : Option Chars := none
  parent : Option Chars := none
  scientific_name : Option Chars := none
  rank : Option Chars := none
deriving DecidableEq

/-- `Taxonomy._interpret_record` (lines 103-118): four independent regex
searches over the raw block. -/
def interpret_record (record : Chars) : TaxonRecord :=
  { raw := record
  , id := searchWith (matchNumAt idLit) record
  , parent := searchWith (matchNumAt parentLit) record
  , scientific_name := searchWith (matchLineAt nameLit) record
  , rank := searchWith (matchLineAt rankLit) record }

/-- `self.records`: a Python dict from integer taxon id to record, modelled
as an insertion-ordered association list with unique keys. -/
abbrev Store := List (Nat × TaxonRecord)

/-- Python dict lookup `records[k]` (first binding of the key). -/
def storeFind? : Store → Nat → Option TaxonRecord
  | [], _ => none
  | (k2, r) :: rest, k => if k2 = k then some r else storeFind? rest k

/-- Python dict assignment `records[k] = v`: replace in place when the key
exists, otherwise append. -/
def storeInsert (st : Store) (k : Nat) (v : TaxonRecord) : Store :=
  if st.any (fun p => p.1 = k) then
    st.map (fun p => if p.1 = k then (k, v) else p)
  else st ++ [(k, v)]

/-- Whether the id regex matches somewhere in a block. -/
def hasId (b : Chars) : Bool := (searchWith (matchNumAt idLit) b).isSome

/-- The per-block body of the loop in `Taxonomy.load_records` (lines 89-99):
parse the block; on success store the record under its integer id; when the
block yields no id, the `KeyError` is caught, a diagnostic quoting the block
is printed and the loop continues.  The second component collects the raw
text of the blocks reported as unparseable. -/
def loadStep (acc : Store × List Chars) (b : Chars) : Store × List Chars :=
  let dico := interpret_record b
  match dico.id with
  | some d => (storeInsert acc.1 (digitsToNat d) dico, acc.2)
  | none => (acc.1, acc.2 ++ [b])

/-- The record loop of `Taxonomy.load_records` over a list of raw blocks,
starting from the freshly reset empty store (line 70). -/
def load_blocks (blocks : List Chars) : Store × List Chars :=
  blocks.foldl loadStep ([], [])

/-- Python `str.split(sep)` for a nonempty separator, with fuel. -/
def pySplitAux (sep : Chars) : Nat → Chars → Chars → List Chars
  | 0, cur, s => [cur.reverse ++ s]
  | _ + 1, cur, [] => [cur.reverse]
  | fuel + 1, cur, c :: rest =>
    if startsWithSeq sep (c :: rest) then
      cur.reverse :: pySplitAux sep fuel [] (List.drop (sep.length - 1) rest)
    else pySplitAux sep fuel (c :: cur) rest

/-- Python `str.split(sep)` for a nonempty separator. -/
def pySplit (sep s : Chars) : List Chars := pySplitAux sep s.length [] s

/-- Python `str.strip()`. -/
def pyStrip (s : Chars) : Chars :=
  ((s.dropWhile isPySpace).reverse.dropWhile isPySpace).reverse

/-- The record separator of the flat file (line 78). -/
def sepSeq : Chars := ['/', '/', '\n']

/-- `Taxonomy.load_records` (lines 64-101) once the flat file has been read
into `corpus`: strip the text, split it on the record separator and run the
record loop on every block. -/
def load_records (corpus : Chars) : Store × List Chars :=
  load_blocks (pySplit sepSeq (pyStrip corpus))

/-- Python exceptions raised by the modelled methods. -/
inductive Err where
  | keyError : Nat → Err
  | fieldError : String → Err
  | recursionError : Err
  | nameError : String → Err
  | nonTermination : Err
deriving DecidableEq

/-- Key lookup failures (Python `KeyError`), as opposed to other failures. -/
def Err.isLookup : Err → Bool
  | keyError _ => true
  | fieldError _ => true
  | _ => false

/-- Decidable equality for `Except` results. -/
def exceptDecEq {ε α : Type} [DecidableEq ε] [DecidableEq α] : DecidableEq (Except ε α) :=
  fun a b =>
    match a, b with
    | .ok x, .ok y =>
      if h : x = y then .isTrue (by rw [h]) else .isFalse (fun hh => h (Except.ok.inj hh))
    | .error x, .error y =>
      if h : x = y then .isTrue (by rw [h]) else .isFalse (fun hh => h (Except.error.inj hh))
    | .ok _, .error _ => .isFalse (fun hh => Except.noConfusion hh)
    | .error _, .ok _ => .isFalse (fun hh => Except.noConfusion hh)

instance exceptDecEqInst {ε α : Type} [DecidableEq ε] [DecidableEq α] :
    DecidableEq (Except ε α) := exceptDecEq

/-- Python default recursion limit, bounding `_gen_lineage_and_rank`. -/
def recursionLimit : Nat := 1000

/-- `Taxonomy._gen_lineage_and_rank` (lines 182-194), with explicit fuel for
Python recursion depth.  Returns the Python return value together with the
final contents of the in-place mutated accumulator list `lineage_rank`.
The lazy reload of an empty store (lines 184-185) is out-of-scope file I/O,
so the theorems below restrict themselves to nonempty stores. -/
def gen_lineage_and_rank (st : Store) :
    Nat → Nat → List (Chars × Chars) →
    Except Err (List (Chars × Chars)) × List (Chars × Chars)
  | 0, _, acc => (.error .recursionError, acc)
  | fuel + 1, taxon, acc =>
    match storeFind? st taxon with
    | none => (.error (.keyError taxon), acc)
    | some record =>
      match record.parent with
      | none => (.error (.fieldError ("parent")), acc)
      | some p =>
        if digitsToNat p = 0 then
          (.ok acc.reverse, acc.reverse)
        else
          match record.scientific_name with
          | none => (.error (.fieldError ("scientific_name")), acc)
          | some nm =>
            match record.rank with
            | none => (.error (.fieldError ("rank")), acc)
            | some rk =>
              gen_lineage_and_rank st fuel (digitsToNat p) (acc ++ [(nm, rk)])

/-- `Taxonomy.get_lineage` (lines 169-180).  `dflt` models the list object
bound to the mutable default of `lineage_rank`; line 178 passes a fresh `[]`
explicitly, so the default is neither read nor written. -/
def get_lineage (st : Store) (dflt : List (Chars × Chars)) (taxon : Nat) :
    Except Err (List Chars) × List (Chars × Chars) :=
  ((gen_lineage_and_rank st recursionLimit taxon []).1.map (fun l => l.map Prod.fst), dflt)

/-- `Taxonomy.get_lineage_and_rank` (lines 196-206); line 205 also passes a
fresh `[]`. -/
def get_lineage_and_rank (st : Store) (dflt : List (Chars × Chars)) (taxon : Nat) :
    Except Err (List (Chars × Chars)) × List (Chars × Chars) :=
  ((gen_lineage_and_rank st recursionLimit taxon []).1, dflt)

/-- Calling `_gen_lineage_and_rank` with its second argument omitted would
instead read and mutate the shared default list; no public method does. -/
def gen_lineage_default (st : Store) (dflt : List (Chars × Chars)) (taxon : Nat) :
    Except Err (List (Chars × Chars)) × List (Chars × Chars) :=
  gen_lineage_and_rank st recursionLimit taxon dflt

/-- First list comprehension of `get_children` (lines 212-213): collect the
records whose `parent` field equals the query string; a record with no
`parent` field raises `KeyError` for the whole scan, at the first such
record met in store order. -/
def childrenScan (tgt : Chars) : List (Nat × TaxonRecord) → Except Err (List TaxonRecord)
  | [] => .ok []
  | (_, r) :: rest =>
    match r.parent with
    | none => .error (.fieldError ("parent"))
    | some p =>
      match childrenScan tgt rest with
      | .error e => .error e
      | .ok tail => .ok (if p = tgt then r :: tail else tail)

/-- Second list comprehension of `get_children` (line 214): extract the `id`
field of every matching record. -/
def idsOf : List TaxonRecord → Except Err (List Chars)
  | [] => .ok []
  | r :: rest =>
    match r.id with
    | none => .error (.fieldError ("id"))
    | some i =>
      match idsOf rest with
      | .error e => .error e
      | .ok tail => .ok (i :: tail)

/-- `Taxonomy.get_children` (lines 208-215) after the `str(taxon)`
conversion of line 211; the lazy reload of an empty store (lines 209-210)
is out-of-scope file I/O. -/
def get_children_of_str (st : Store) (tgt : Chars) : Except Err (List Chars) :=
  match childrenScan tgt st with
  | .error e => .error e
  | .ok ms => idsOf ms

/-- `Taxonomy.get_children` on an integer taxon: line 211 stringifies the
query before the scan. -/
def get_children (st : Store) (taxon : Nat) : Except Err (List Chars) :=
  get_children_of_str st (natRepr taxon)

/-- The diagnostic printed at line 256. -/
def limitMsg : Chars := ("Reached limit number of nodes").toList

/-- The inner double loop of `_get_family_tree_uniprot` (lines 250-253):
children of every frontier taxon in order, paired with the new edges. -/
def expand_round (st : Store) : List Chars → Except Err (List Chars × List (Chars × Chars))
  | [] => .ok ([], [])
  | p :: ps =>
    match get_children_of_str st p with
    | .error e => .error e
    | .ok cs =>
      match expand_round st ps with
      | .error e => .error e
      | .ok (ncs, edges) => .ok (cs ++ ncs, cs.map (fun c => (p, c)) ++ edges)

/-- The `while` loop of `_get_family_tree_uniprot` (lines 248-256), with fuel
for the unbounded Python loop; the fourth argument collects the printed
diagnostics. -/
def tree_rounds (st : Store) (limits : Nat) :
    Nat → List Chars → List (Chars × Chars) → List Chars →
    Except Err (List (Chars × Chars) × List Chars)
  | 0, children, tree, outp =>
    if children = [] then .ok (tree, outp) else .error .nonTermination
  | fuel + 1, children, tree, outp =>
    if children = [] then .ok (tree, outp)
    else
      match expand_round st children with
      | .error e => .error e
      | .ok (ncs, edges) =>
        let tree2 := tree ++ edges
        let outp2 := if limits < tree2.length then outp ++ [limitMsg] else outp
        tree_rounds st limits fuel ncs tree2 outp2

/-- `Taxonomy._get_family_tree_uniprot` (lines 245-257).  On a cycle-free
store the loop runs at most `st.length + 1` rounds, so that much fuel makes
the model exact there. -/
def get_family_tree_uniprot (st : Store) (taxon : Chars) (limits : Nat) :
    Except Err (List (Chars × Chars) × List Chars) :=
  tree_rounds st limits (st.length + 1) [taxon] [] []

/-- `Taxonomy.get_family_tree` (lines 217-243): the body reads the undefined
variable `method` (line 240), so every call raises `NameError` before any
traversal happens; even the intended branch would discard the helper's
return value (line 241). -/
def get_family_tree (st : Store) (taxon : Nat) (limits : Nat) :
    Except Err (List (Chars × Chars) × List Chars) :=
  .error (.nameError ("method"))

/-! ### Concrete stores used by the theorems -/

/-- A fully populated record, as loading a well-formed block would build it
(the `raw` text is irrelevant to every consumer below). -/
def mkRec (i p nm rk : Chars) : TaxonRecord :=
  { raw := [], id := some i, parent := some p, scientific_name := some nm, rank := some rk }

/-- The synthetic chain root(1, parent 0) → child(2, parent 1) →
grandchild(3, parent 2). -/
def chainStore : Store :=
  [(1, mkRec (natRepr 1) (natRepr 0) (("Alpha").toList) (("no rank").toList)),
   (2, mkRec (natRepr 2) (natRepr 1) (("Beta").toList) (("genus").toList)),
   (3, mkRec (natRepr 3) (natRepr 2) (("Gamma").toList) (("species").toList))]

/-- A five-taxon chain 1 → 2 → 3 → 4 → 5 used for the family-tree limit. -/
def chain5Store : Store :=
  [(1, mkRec (natRepr 1) (natRepr 0) (("N1").toList) (("r").toList)),
   (2, mkRec (natRepr 2) (natRepr 1) (("N2").toList) (("r").toList)),
   (3, mkRec (natRepr 3) (natRepr 2) (("N3").toList) (("r").toList)),
   (4, mkRec (natRepr 4) (natRepr 3) (("N4").toList) (("r").toList)),
   (5, mkRec (natRepr 5) (natRepr 4) (("N5").toList) (("r").toList))]

/-- A branching store: root 1 with children 2 and 3, and 4 below 2. -/
def demoStore : Store :=
  [(1, mkRec (natRepr 1) (natRepr 0) (("Root").toList) (("no rank").toList)),
   (2, mkRec (natRepr 2) (natRepr 1) (("Left").toList) (("genus").toList)),
   (3, mkRec (natRepr 3) (natRepr 1) (("Right").toList) (("genus").toList)),
   (4, mkRec (natRepr 4) (natRepr 2) (("Leaf").toList) (("species").toList))]

/-- A record with no `parent` field, as a block without a `PARENT ID` line
would produce. -/
def brokenRec : TaxonRecord := { raw := [], id := some (natRepr 7) }

/-- `chainStore` extended with a parentless record unrelated to any query. -/
def brokenStore : Store := chainStore ++ [(7, brokenRec)]

/-- A three-block corpus whose middle block has no `ID` line. -/
def demoCorpus : Chars :=
  ("ID : 1\nPARENT ID : 0\nRANK : no rank\nSCIENTIFIC NAME : Root\n//\nRANK : genus\nSCIENTIFIC NAME : Unknown\n//\nID : 2\nPARENT ID : 1\nRANK : species\nSCIENTIFIC NAME : Leaf").toList

/-- The malformed middle block of `demoCorpus`. -/
def demoBadBlock : Chars := ("RANK : genus\nSCIENTIFIC NAME : Unknown\n").toList

/-- The well-formed last block of `demoCorpus`. -/
def demoGoodBlock : Chars :=
  ("ID : 2\nPARENT ID : 1\nRANK : species\nSCIENTIFIC NAME : Leaf").toList

/-- An ancestor chain inside `st` that, after `n` parent steps away from the
queried taxon, references an identifier with no record in the store. -/
inductive BrokenChain (st : Store) : Nat → Nat → Prop where
  | absent (t : Nat) : storeFind? st t = none → BrokenChain st t 0
  | step (t n : Nat) (r : TaxonRecord) (p : Chars) :
      storeFind? st t = some r → r.parent = some p → digitsToNat p ≠ 0 →
      BrokenChain st (digitsToNat p) n → BrokenChain st t (n + 1)

/-- An entry the record loop can produce: the record is the interpretation
of its own raw block and its key is the integer value of the id capture. -/
def goodEntry (q : Nat × TaxonRecord) : Prop :=
  q.2 = interpret_record (q.2).raw ∧
  ∃ d, searchWith (matchNumAt idLit) (q.2).raw = some d ∧ q.1 = digitsToNat d

/-! ### Theorems -/

set_option maxRecDepth 40000

/-- C7: every public invocation of `get_lineage` or `get_lineage_and_rank`
starts from a fresh empty accumulator, so no accumulated state leaks
between independent calls: the result is independent of the state of the
shared default accumulator, the default accumulator is left unchanged, and
calling `get_lineage` twice in a row with the same taxon over an unchanged
store returns the same sequence both times. -/
theorem lineage_isolation (st : Store) (d d2 : List (Chars × Chars)) (t : Nat) :
    (get_lineage st d t).1 = (get_lineage st d2 t).1 ∧
    (get_lineage st d t).2 = d ∧
    (get_lineage_and_rank st d t).1 = (get_lineage_and_rank st d2 t).1 ∧
    (get_lineage_and_rank st d t).2 = d ∧
    (get_lineage st ((get_lineage st d t).2) t).1 = (get_lineage st d t).1 :=
  ⟨rfl, rfl, rfl, rfl, rfl⟩

/-- C5 counterexample: on the chain store, `get_lineage 3` returns the names
of taxa 2 and 3 (child and grandchild), not the claimed names of taxa 1 and
2, so the claim as stated is false at this input. -/
theorem get_lineage_chain_counter :
    (get_lineage chainStore [] 3).1 = .ok [("Beta").toList, ("Gamma").toList] ∧
    ¬ ([("Beta").toList, ("Gamma").toList] = [("Alpha").toList, ("Beta").toList]) := by
  exact ⟨rfl, by decide⟩

/-- C5 amended: for the chain root(1, parent 0) → child(2, parent 1) →
grandchild(3, parent 2), `get_lineage 3` returns the ordered sequence
[name of taxon 2, name of taxon 3], oldest first: the root's own name is
excluded and the queried grandchild's own name is included. -/
theorem get_lineage_chain_amended :
    (get_lineage chainStore [] 3).1 = .ok [("Beta").toList, ("Gamma").toList] := rfl

/-- C8: for every store, querying the lineage of a taxon whose record has
the root sentinel parent identifier 0 returns an empty sequence. -/
theorem get_lineage_root (st : Store) (d : List (Chars × Chars)) (t : Nat)
    (r : TaxonRecord) (p : Chars)
    (hr : storeFind? st t = some r) (hp : r.parent = some p)
    (h0 : digitsToNat p = 0) :
    (get_lineage st d t).1 = .ok [] := by
  have h1000 : recursionLimit = 999 + 1 := rfl
  unfold get_lineage
  rw [h1000]
  simp [gen_lineage_and_rank, hr, hp, h0, Except.map]

/-- C8 witness: taxon 1 of the chain store is a root and its lineage is
empty. -/
theorem get_lineage_root_witness :
    (storeFind? chainStore 1 =
      some (mkRec (natRepr 1) (natRepr 0) (("Alpha").toList) (("no rank").toList))) ∧
    (get_lineage chainStore [] 1).1 = .ok [] :=
  ⟨rfl, get_lineage_root chainStore [] 1 _ (natRepr 0) rfl rfl rfl⟩

/-- C1: on the five-taxon chain with `limits = 1`, the helper prints the
limit diagnostic once the edge count exceeds the limit (and keeps printing
it every later round), but it never stops: all four descendant edges are
returned although the claim allows at most one extra round beyond the
limit (two edges here).  The loop body has no `break` after the
diagnostic, so the limit never stops the expansion. -/
theorem family_tree_limit_not_enforced :
    get_family_tree_uniprot chain5Store (natRepr 1) 1 =
      .ok ([(natRepr 1, natRepr 2), (natRepr 2, natRepr 3),
            (natRepr 3, natRepr 4), (natRepr 4, natRepr 5)],
           [limitMsg, limitMsg, limitMsg, limitMsg]) := by
  decide

/-- C2: every call of `get_family_tree` raises `NameError` on the undefined
variable `method` before any traversal, so it never returns the
breadth-first edge sequence the claim describes; the breadth-first
expansion itself lives in `_get_family_tree_uniprot`, which on the
branching demo store does return the (parent, child) edges in discovery
order with the frontier semantics of the claim. -/
theorem get_family_tree_name_error :
    (∀ (st : Store) (t l : Nat),
        get_family_tree st t l = .error (.nameError ("method"))) ∧
    get_family_tree_uniprot demoStore (natRepr 1) 100 =
      .ok ([(natRepr 1, natRepr 2), (natRepr 1, natRepr 3),
            (natRepr 2, natRepr 4)], []) :=
  ⟨fun _ _ _ => rfl, by decide⟩

/-- Auxiliary for C6: whenever the ancestor chain reaches an identifier with
no record within the recursion budget, the walker fails with a `KeyError`
(either on the store lookup itself or on a missing dict field met on the
way), for every accumulator. -/
theorem gen_broken (st : Store) {t n : Nat} (h : BrokenChain st t n) :
    ∀ (fuel : Nat) (acc : List (Chars × Chars)), n < fuel →
      ∃ e, (gen_lineage_and_rank st fuel t acc).1 = .error e ∧ e.isLookup = true := by
  induction h with
  | absent t ht =>
    intro fuel acc hf
    obtain ⟨f, rfl⟩ : ∃ f, fuel = f + 1 := ⟨fuel - 1, by omega⟩
    exact ⟨.keyError t, by simp [gen_lineage_and_rank, ht], rfl⟩
  | step t n r p hr hp hnz hb ih =>
    intro fuel acc hf
    obtain ⟨f, rfl⟩ : ∃ f, fuel = f + 1 := ⟨fuel - 1, by omega⟩
    cases hsn : r.scientific_name with
    | none =>
      exact ⟨.fieldError ("scientific_name"),
        by simp [gen_lineage_and_rank, hr, hp, hnz, hsn], rfl⟩
    | some nm =>
      cases hrk : r.rank with
      | none =>
        exact ⟨.fieldError ("rank"),
          by simp [gen_lineage_and_rank, hr, hp, hnz, hsn, hrk], rfl⟩
      | some rk =>
        obtain ⟨e, he, hl⟩ := ih f (acc ++ [(nm, rk)]) (by omega)
        exact ⟨e, by simpa [gen_lineage_and_rank, hr, hp, hnz, hsn, hrk] using he, hl⟩

/-- C6: for every nonempty store, when the queried taxon identifier is
absent from the store, or its ancestor chain references an identifier
absent from the store (within the recursion budget), `get_lineage` fails
with a lookup error for that call rather than returning a partial or
default result. -/
theorem get_lineage_broken (st : Store) (t n : Nat) (d : List (Chars × Chars))
    (hne : st ≠ []) (hb : BrokenChain st t n) (hn : n < recursionLimit) :
    ∃ e, (get_lineage st d t).1 = .error e ∧ e.isLookup = true := by
  obtain ⟨e, he, hl⟩ := gen_broken st hb recursionLimit [] hn
  exact ⟨e, by simp [get_lineage, he, Except.map], hl⟩

/-- C6 witness: taxon 99 is absent from the chain store and its lineage
query fails with a lookup error. -/
theorem get_lineage_broken_witness :
    (chainStore ≠ [] ∧ storeFind? chainStore 99 = none ∧ 0 < recursionLimit) ∧
    ∃ e, (get_lineage chainStore [] 99).1 = .error e ∧ e.isLookup = true :=
  ⟨⟨by decide, by decide, by decide⟩,
    get_lineage_broken chainStore 99 0 [] (by decide)
      (BrokenChain.absent 99 (by decide)) (by decide)⟩

/-- Auxiliary for C10: the comprehension scan fails with `KeyError` on
`parent` as soon as any record of the store lacks that field. -/
theorem childrenScan_missing (tgt : Chars) :
    ∀ (l : List (Nat × TaxonRecord)) (k : Nat) (r : TaxonRecord),
      (k, r) ∈ l → r.parent = none →
      childrenScan tgt l = .error (.fieldError ("parent")) := by
  intro l
  induction l with
  | nil => intro k r h _; cases h
  | cons hd tl ih =>
    intro k r hmem hnone
    obtain ⟨k2, r2⟩ := hd
    rcases List.mem_cons.mp hmem with heq | htl
    · obtain ⟨-, rfl⟩ := Prod.mk.inj heq.symm
      simp [childrenScan, hnone]
    · cases hp2 : r2.parent with
      | none => simp [childrenScan, hp2]
      | some p => simp [childrenScan, hp2, ih k r htl hnone]

/-- C10: if the store contains any record that lacks a `parent` field, then
every call of `get_children` fails with a key-lookup error during its scan,
whatever taxon is queried, instead of skipping that record. -/
theorem get_children_missing_parent (st : Store) (t k : Nat) (r : TaxonRecord)
    (hmem : (k, r) ∈ st) (hnone : r.parent = none) :
    get_children st t = .error (.fieldError ("parent")) := by
  simp [get_children, get_children_of_str,
    childrenScan_missing (natRepr t) st k r hmem hnone]

/-- C10 witness: the parentless record 7 is unrelated to the queried
taxon 42, yet the query fails with the `parent` key error. -/
theorem get_children_missing_parent_witness :
    ((7, brokenRec) ∈ brokenStore ∧ brokenRec.parent = none) ∧
    get_children brokenStore 42 = .error (.fieldError ("parent")) :=
  ⟨⟨by decide, rfl⟩,
    get_children_missing_parent brokenStore 42 7 brokenRec (by decide) rfl⟩

/-- Auxiliary for C9: when every record has a `parent` field, the scan
succeeds and returns the records whose `parent` equals the query, in store
order. -/
theorem childrenScan_ok (tgt : Chars) :
    ∀ l : List (Nat × TaxonRecord),
      (∀ q ∈ l, ((Prod.snd q).parent).isSome = true) →
      childrenScan tgt l =
        .ok ((l.map Prod.snd).filter (fun r => decide (r.parent = some tgt))) := by
  intro l
  induction l with
  | nil => intro _; rfl
  | cons hd tl ih =>
    intro hall
    obtain ⟨k2, r2⟩ := hd
    have h2 := hall (k2, r2) (List.mem_cons_self _ _)
    cases hp2 : r2.parent with
    | none => rw [hp2] at h2; cases h2
    | some p =>
      have ht := ih (fun q hq => hall q (List.mem_cons_of_mem _ hq))
      by_cases hcase : p = tgt
      · subst hcase
        simp [childrenScan, hp2, ht, List.filter_cons]
      · simp [childrenScan, hp2, ht, List.filter_cons, hcase]

/-- Auxiliary for C9: when every record has an `id` field, the projection
comprehension succeeds and returns the id captures in order. -/
theorem idsOf_ok :
    ∀ l : List TaxonRecord, (∀ r ∈ l, (r.id).isSome = true) →
      idsOf l = .ok (l.filterMap (fun r => r.id)) := by
  intro l
  induction l with
  | nil => intro _; rfl
  | cons r tl ih =>
    intro hall
    have h2 := hall r (List.mem_cons_self _ _)
    cases hi : r.id with
    | none => rw [hi] at h2; cases h2
    | some i =>
      have ht := ih (fun q hq => hall q (List.mem_cons_of_mem _ hq))
      simp [idsOf, hi, ht, List.filterMap_cons]

/-- C9: for every nonempty store whose records all carry `id` and `parent`
fields, `get_children` succeeds and returns exactly the identifiers of the
records whose parent identifier equals the queried taxon (written in the
store as the decimal string the query is converted to), independent of
order: membership in the result is equivalent to the existence of a
matching record. -/
theorem get_children_members (st : Store) (t : Nat) (hne : st ≠ [])
    (hp : ∀ q ∈ st, ((Prod.snd q).parent).isSome = true)
    (hid : ∀ q ∈ st, ((Prod.snd q).id).isSome = true) :
    ∃ l, get_children st t = .ok l ∧
      ∀ s : Chars, s ∈ l ↔
        ∃ k r, (k, r) ∈ st ∧ r.id = some s ∧ r.parent = some (natRepr t) := by
  have hscan := childrenScan_ok (natRepr t) st hp
  have hfil : ∀ r ∈ (st.map Prod.snd).filter
      (fun r => decide (r.parent = some (natRepr t))), (r.id).isSome = true := by
    intro r hr
    have hr2 := (List.mem_filter.mp hr).1
    obtain ⟨q, hq, rfl⟩ := List.mem_map.mp hr2
    exact hid q hq
  have hids := idsOf_ok _ hfil
  refine ⟨List.filterMap (fun r => r.id)
      ((st.map Prod.snd).filter (fun r => decide (r.parent = some (natRepr t)))), ?_, ?_⟩
  · simp [get_children, get_children_of_str, hscan, hids]
  intro s
  constructor
  · intro hs
    obtain ⟨r, hrmem, hrid⟩ := List.mem_filterMap.mp hs
    have h1 := List.mem_filter.mp hrmem
    obtain ⟨q, hq, rfl⟩ := List.mem_map.mp h1.1
    exact ⟨q.1, q.2, by simpa using hq, hrid, of_decide_eq_true h1.2⟩
  · rintro ⟨k, r, hkr, hid2, hpar⟩
    refine List.mem_filterMap.mpr ⟨r, ?_, hid2⟩
    exact List.mem_filter.mpr ⟨List.mem_map.mpr ⟨(k, r), hkr, rfl⟩, by simp [hpar]⟩

/-- C9 witness: on the branching demo store, the children of taxon 1 are
exactly the records with parent "1", namely taxa 2 and 3. -/
theorem get_children_members_witness :
    (demoStore ≠ []) ∧
    ∃ l, get_children demoStore 1 = .ok l ∧
      ∀ s : Chars, s ∈ l ↔
        ∃ k r, (k, r) ∈ demoStore ∧ r.id = some s ∧ r.parent = some (natRepr 1) :=
  ⟨by decide, get_children_members demoStore 1 (by decide) (by decide) (by decide)⟩

/-- Dict assignment preserves a property of all entries when the new entry
has it too. -/
theorem storeInsert_forall {Q : Nat × TaxonRecord → Prop} (st : Store) (k : Nat)
    (v : TaxonRecord) (hall : ∀ q ∈ st, Q q) (hnew : Q (k, v)) :
    ∀ q ∈ storeInsert st k v, Q q := by
  intro q hq
  unfold storeInsert at hq
  by_cases hc : st.any (fun p => p.1 = k)
  · rw [if_pos hc] at hq
    obtain ⟨q2, hq2, rfl⟩ := List.mem_map.mp hq
    by_cases h2 : q2.1 = k
    · simpa [h2] using hnew
    · simpa [h2] using hall q2 hq2
  · rw [if_neg hc] at hq
    rcases List.mem_append.mp hq with h | h
    · exact hall q h
    · rcases List.mem_singleton.mp h with rfl
      exact hnew

/-- Dict assignment makes the assigned key present. -/
theorem storeInsert_key (st : Store) (k : Nat) (v : TaxonRecord) :
    ∃ r, (k, r) ∈ storeInsert st k v := by
  unfold storeInsert
  by_cases hc : st.any (fun p => p.1 = k)
  · rw [if_pos hc]
    obtain ⟨q, hq, hqk⟩ := List.any_eq_true.mp hc
    refine ⟨v, List.mem_map.mpr ⟨q, hq, ?_⟩⟩
    simp [of_decide_eq_true hqk]
  · rw [if_neg hc]
    exact ⟨v, List.mem_append.mpr (Or.inr (List.mem_singleton.mpr rfl))⟩

/-- Dict assignment keeps every key that was already present. -/
theorem storeInsert_keep (st : Store) (k n : Nat) (v : TaxonRecord)
    (h : ∃ r, (n, r) ∈ st) : ∃ r, (n, r) ∈ storeInsert st k v := by
  by_cases hnk : n = k
  · subst hnk; exact storeInsert_key st n v
  · obtain ⟨r, hr⟩ := h
    unfold storeInsert
    by_cases hc : st.any (fun p => p.1 = k)
    · rw [if_pos hc]
      refine ⟨r, List.mem_map.mpr ⟨(n, r), hr, ?_⟩⟩
      simp [hnk]
    · rw [if_neg hc]
      exact ⟨r, List.mem_append.mpr (Or.inl hr)⟩

/-- A block with an id capture makes `loadStep` insert its record. -/
theorem loadStep_some (acc : Store × List Chars) (b d : Chars)
    (hb : searchWith (matchNumAt idLit) b = some d) :
    loadStep acc b = (storeInsert acc.1 (digitsToNat d) (interpret_record b), acc.2) := by
  simp [loadStep, interpret_record, hb]

/-- A block with no id capture makes `loadStep` record a diagnostic only. -/
theorem loadStep_none (acc : Store × List Chars) (b : Chars)
    (hb : searchWith (matchNumAt idLit) b = none) :
    loadStep acc b = (acc.1, acc.2 ++ [b]) := by
  simp [loadStep, interpret_record, hb]

/-- Auxiliary for C3: the store built by the record loop is the one built
from the blocks having an id, whatever diagnostics were accumulated. -/
theorem loadFold_store :
    ∀ (blocks : List Chars) (st0 : Store) (ds0 ds1 : List Chars),
      (List.foldl loadStep (st0, ds0) blocks).1 =
        (List.foldl loadStep (st0, ds1) (blocks.filter hasId)).1 := by
  intro blocks
  induction blocks with
  | nil => intro st0 ds0 ds1; rfl
  | cons b tl ih =>
    intro st0 ds0 ds1
    cases hb : searchWith (matchNumAt idLit) b with
    | some d =>
      have hid : hasId b = true := by simp [hasId, hb]
      rw [List.foldl_cons, List.filter_cons, if_pos hid, List.foldl_cons,
        loadStep_some _ b d hb, loadStep_some _ b d hb]
      exact ih _ _ _
    | none =>
      have hid : hasId b = false := by simp [hasId, hb]
      rw [List.foldl_cons, List.filter_cons, if_neg (by simp [hid]),
        loadStep_none _ b hb]
      exact ih _ _ _

/-- Auxiliary for C3: the diagnostics accumulated by the record loop are
exactly the raw blocks with no id capture, in order. -/
theorem loadFold_diag :
    ∀ (blocks : List Chars) (st0 : Store) (ds0 : List Chars),
      (List.foldl loadStep (st0, ds0) blocks).2 =
        ds0 ++ blocks.filter (fun b => !(hasId b)) := by
  intro blocks
  induction blocks with
  | nil => intro st0 ds0; simp
  | cons b tl ih =>
    intro st0 ds0
    cases hb : searchWith (matchNumAt idLit) b with
    | some d =>
      have hid : hasId b = true := by simp [hasId, hb]
      rw [List.foldl_cons, loadStep_some _ b d hb, List.filter_cons,
        if_neg (by simp [hid])]
      exact ih _ _
    | none =>
      have hid : hasId b = false := by simp [hasId, hb]
      rw [List.foldl_cons, loadStep_none _ b hb, List.filter_cons,
        if_pos (by simp [hid]), ih _ _]
      simp

/-- C3: for every corpus, each raw block whose field extraction fails (no id
capture) is skipped with a diagnostic quoting exactly that block, and
loading completes over all remaining blocks: the resulting store is the one
obtained from the well-formed blocks alone, and one diagnostic is emitted
per malformed block, in order — a bad record never aborts the load. -/
theorem load_resilient (corpus : Chars) :
    (load_records corpus).1 =
      (load_blocks ((pySplit sepSeq (pyStrip corpus)).filter hasId)).1 ∧
    (load_records corpus).2 =
      (pySplit sepSeq (pyStrip corpus)).filter (fun b => !(hasId b)) := by
  constructor
  · exact loadFold_store (pySplit sepSeq (pyStrip corpus)) [] [] []
  · simpa using loadFold_diag (pySplit sepSeq (pyStrip corpus)) [] []

/-- Auxiliary for C4: every entry of the store built by the record loop is
a good entry, provided the initial entries are. -/
theorem loadFold_entries :
    ∀ (blocks : List Chars) (acc : Store × List Chars),
      (∀ q ∈ acc.1, goodEntry q) →
      ∀ q ∈ (List.foldl loadStep acc blocks).1, goodEntry q := by
  intro blocks
  induction blocks with
  | nil => intro acc h; exact h
  | cons b tl ih =>
    intro acc hacc
    rw [List.foldl_cons]
    apply ih
    cases hb : searchWith (matchNumAt idLit) b with
    | none => rw [loadStep_none _ b hb]; exact hacc
    | some d =>
      rw [loadStep_some _ b d hb]
      exact storeInsert_forall _ _ _ hacc ⟨rfl, d, hb, rfl⟩

/-- Auxiliary for C4: the record loop keeps every key already present. -/
theorem loadFold_keep :
    ∀ (blocks : List Chars) (acc : Store × List Chars) (n : Nat),
      (∃ r, (n, r) ∈ acc.1) → ∃ r, (n, r) ∈ (List.foldl loadStep acc blocks).1 := by
  intro blocks
  induction blocks with
  | nil => intro acc n h; exact h
  | cons b tl ih =>
    intro acc n h
    rw [List.foldl_cons]
    apply ih
    cases hb : searchWith (matchNumAt idLit) b with
    | none => rw [loadStep_none _ b hb]; exact h
    | some d => rw [loadStep_some _ b d hb]; exact storeInsert_keep _ _ _ _ h

/-- Auxiliary for C4: every processed block with an id capture ends up with
its integer id present in the store. -/
theorem loadFold_keys :
    ∀ (blocks : List Chars) (acc : Store × List Chars) (b d : Chars),
      b ∈ blocks → searchWith (matchNumAt idLit) b = some d →
      ∃ r, (digitsToNat d, r) ∈ (List.foldl loadStep acc blocks).1 := by
  intro blocks
  induction blocks with
  | nil => intro acc b d h _; cases h
  | cons b2 tl ih =>
    intro acc b d hmem hd
    rcases List.mem_cons.mp hmem with rfl | htl
    · rw [List.foldl_cons, loadStep_some _ b d hd]
      exact loadFold_keep tl _ _ (storeInsert_key _ _ _)
    · rw [List.foldl_cons]
      exact ih _ b d htl hd

/-- C4: for every corpus, a raw block with no id capture contributes no
record to the store (every stored record's raw block has a matching id
line, and the record is the interpretation of its own block, keyed by the
integer value of that id), while every block of the corpus with an id
capture has its integer id present in the resulting store. -/
theorem load_skips_idless (corpus : Chars) :
    (∀ q ∈ (load_records corpus).1,
        hasId ((Prod.snd q).raw) = true ∧
        Prod.snd q = interpret_record ((Prod.snd q).raw) ∧
        (∃ d, searchWith (matchNumAt idLit) ((Prod.snd q).raw) = some d ∧
          Prod.fst q = digitsToNat d)) ∧
    (∀ b ∈ pySplit sepSeq (pyStrip corpus), ∀ d : Chars,
        searchWith (matchNumAt idLit) b = some d →
        ∃ r, (digitsToNat d, r) ∈ (load_records corpus).1) := by
  constructor
  · intro q hq
    have h := loadFold_entries (pySplit sepSeq (pyStrip corpus)) ([], [])
      (by intro q hq; cases hq) q hq
    obtain ⟨h1, d, h2, h3⟩ := h
    exact ⟨by simp [hasId, h2], h1, d, h2, h3⟩
  · intro b hb d hd
    exact loadFold_keys (pySplit sepSeq (pyStrip corpus)) ([], []) b d hb hd

/-- C4 witness: in the demo corpus the block missing an `ID` line is
skipped while the valid block with id 2 is loaded. -/
theorem load_skips_idless_witness :
    (demoGoodBlock ∈ pySplit sepSeq (pyStrip demoCorpus) ∧
      searchWith (matchNumAt idLit) demoGoodBlock = some ['2']) ∧
    ∃ r, (2, r) ∈ (load_records demoCorpus).1 :=
  ⟨⟨by decide, by decide⟩,
    (load_skips_idless demoCorpus).2 demoGoodBlock (by decide) ['2'] (by decide)⟩

end Biokit
